import Mathlib

/-!
Verification of the rssant maintenance commands (`rssant_cli/rss.py`).

Each command is embedded as a pure function over explicit record states:
database rows become structures, per-row SQL updates become list maps,
batch loops become folds or maps, and write/log effects are counted
explicitly.  Functions of the repository that are only called here (their
definitions live outside this file's source tree) are modelled from the
spec and marked as such in their doc comments.
-/

namespace Rssant

/-! ### OffsetReconciler: `fix_user_story_offset` -/

/-- One `UserStory` row joined with its referenced `Story` row's offset
(the join computed by the mismatch report SQL).  The repair only ever
updates `offset`; `story_offset` belongs to the story table and is
constant during the run. -/
structure USRow where
  id : Nat
  user_id : Nat
  feed_id : Nat
  offset : Int
  story_offset : Int
deriving DecidableEq

/-- Effect of `UserStory.objects.filter(pk=p.1).update(offset=p.2)` on one row. -/
def applyUp (p : Nat × Int) (r : USRow) : USRow :=
  if r.id = p.1 then { r with offset := p.2 } else r

/-- One SQL `UPDATE` by primary key over the whole table. -/
def updateOffset (rows : List USRow) (p : Nat × Int) : List USRow :=
  rows.map (applyUp p)

/-- Execute a list of single-row offset updates in order; every prefix of
the list yields one transient table state. -/
def runUpdates (rows : List USRow) (ups : List (Nat × Int)) : List USRow :=
  ups.foldl updateOffset rows

/-- Cumulative effect of a list of updates on a single row. -/
def applyUps (ups : List (Nat × Int)) (r : USRow) : USRow :=
  ups.foldl (fun s p => applyUp p s) r

/-- Rows selected by the mismatch report: `WHERE us."offset" != story."offset"`. -/
def mismatchRows (rows : List USRow) : List USRow :=
  rows.filter (fun r => r.offset != r.story_offset)

/-- The upfront snapshot `items`: `(us.id, us.offset, story.offset)` triples. -/
def mismatchItems (rows : List USRow) : List (Nat × Int × Int) :=
  (mismatchRows rows).map (fun r => (r.id, r.offset, r.story_offset))

/-- Phase A: `update(offset=-us_offset)` for every snapshot item, in order. -/
def phaseAUpdates (items : List (Nat × Int × Int)) : List (Nat × Int) :=
  items.map (fun it => (it.1, -it.2.1))

/-- Phase B: `update(offset=story_offset)` for every snapshot item, in order. -/
def phaseBUpdates (items : List (Nat × Int × Int)) : List (Nat × Int) :=
  items.map (fun it => (it.1, it.2.2))

/-- The sequence of single-row writes `fix_user_story_offset` performs:
none when the snapshot is empty (early return), otherwise all Phase A
writes followed by all Phase B writes inside one transaction. -/
def fix_user_story_offset_ops (rows : List USRow) : List (Nat × Int) :=
  if (mismatchItems rows).isEmpty then []
  else phaseAUpdates (mismatchItems rows) ++ phaseBUpdates (mismatchItems rows)

/-- Final table state produced by `fix_user_story_offset`. -/
def fix_user_story_offset (rows : List USRow) : List USRow :=
  runUpdates rows (fix_user_story_offset_ops rows)

/-- Two rows fall under the same `(user, feed)` uniqueness scope. -/
def sameScope (a b : USRow) : Prop :=
  a.user_id = b.user_id ∧ a.feed_id = b.feed_id

instance (a b : USRow) : Decidable (sameScope a b) :=
  inferInstanceAs (Decidable (_ ∧ _))

/-- The `(user, feed, offset)` uniqueness constraint over the table. -/
def uniqueOffsets (rows : List USRow) : Prop :=
  rows.Pairwise (fun a b => sameScope a b → a.offset ≠ b.offset)

instance (rows : List USRow) : Decidable (uniqueOffsets rows) :=
  inferInstanceAs (Decidable (List.Pairwise _ _))

/-- Per-scope uniqueness of the referenced stories' offsets (two rows of
one `(user, feed)` scope reference distinct stories of one feed, whose
offsets are unique within the feed). -/
def uniqueStoryOffsets (rows : List USRow) : Prop :=
  rows.Pairwise (fun a b => sameScope a b → a.story_offset ≠ b.story_offset)

instance (rows : List USRow) : Decidable (uniqueStoryOffsets rows) :=
  inferInstanceAs (Decidable (List.Pairwise _ _))

/-! ### FeedHealthClassifier: `delete_invalid_feeds` -/

/-- Python's built-in `round` (banker's rounding, ties to the even
integer), idealized over `ℚ`. -/
def pythonRound (q : ℚ) : ℤ :=
  if q - ⌊q⌋ < 1/2 then ⌊q⌋
  else if 1/2 < q - ⌊q⌋ then ⌊q⌋ + 1
  else if ⌊q⌋ % 2 = 0 then ⌊q⌋ else ⌊q⌋ + 1

/-- Fuel-driven binary logarithm, `⌊log₂ n⌋` for `n ≥ 1` (structural
recursion so that proofs can evaluate it; `n` units of fuel always
suffice). -/
def log2fuel : Nat → Nat → Nat
  | 0, _ => 0
  | fuel + 1, n => if 2 ≤ n then log2fuel fuel (n / 2) + 1 else 0

/-- Binary logarithm `⌊log₂ n⌋` (0 for `n = 0`). -/
def natLog2 (n : Nat) : Nat := log2fuel n n

/-- Round the nonnegative fraction `n / d` (`d > 0`) to the nearest
integer, ties to the even integer — the rounding used both by IEEE
binary64 significand rounding and by Python's built-in `round`. -/
def roundHalfEvenFrac (n d : Nat) : Nat :=
  if 2 * (n % d) < d then n / d
  else if d < 2 * (n % d) then n / d + 1
  else if (n / d) % 2 = 0 then n / d else n / d + 1

/-- Floor of `log₂ (n / d)` for `n, d ≥ 1`. -/
def floorLog2Frac (n d : Nat) : Int :=
  if n * 2 ^ natLog2 d < d * 2 ^ natLog2 n then (natLog2 n : Int) - (natLog2 d : Int) - 1
  else (natLog2 n : Int) - (natLog2 d : Int)

/-- The IEEE binary64 value nearest to the nonnegative fraction `n / d`
(`d > 0`), as an unreduced fraction `(p, q)` with value `p / q`: the
ratio is scaled into the binade `[2^52, 2^53)` and its 53-bit significand
rounded to nearest, ties to even.  The exponent range is unbounded, which
is exact for the normal range reached in `delete_invalid_feeds`. -/
def roundDoubleFrac (n d : Nat) : Nat × Nat :=
  if n = 0 then (0, 1)
  else if 0 ≤ 52 - floorLog2Frac n d then
    (roundHalfEvenFrac (n * 2 ^ (52 - floorLog2Frac n d).toNat) d,
      2 ^ (52 - floorLog2Frac n d).toNat)
  else
    (roundHalfEvenFrac n (d * 2 ^ (floorLog2Frac n d - 52).toNat)
        * 2 ^ (floorLog2Frac n d - 52).toNat, 1)

/-- The binary64 double produced by Python's `error_count / total` true
division of two ints (CPython returns the correctly rounded double of
the exact integer ratio). -/
def floatDivFrac (a t : Nat) : Nat × Nat := roundDoubleFrac a t

/-- The binary64 double produced by multiplying a double by the exactly
representable float `100.0` (correctly rounded product). -/
def floatMul100Frac (x : Nat × Nat) : Nat × Nat := roundDoubleFrac (x.1 * 100) x.2

/-- The `error_percent` a candidate feed ends up with in
`delete_invalid_feeds`: every candidate starts at the default
`ok_count=0, error_percent=100`; a feed appearing in the ok-count query
(so `ok_count > 0`) gets `round(error_count / (error_count + ok_count) * 100)`
evaluated the way the program evaluates it — IEEE binary64 division and
multiplication followed by Python `round`'s ties-to-even rounding of the
resulting double. -/
def error_percent (error_count ok_count : Nat) : ℤ :=
  if ok_count = 0 then 100
  else
    ((roundHalfEvenFrac
        (floatMul100Frac (floatDivFrac error_count (error_count + ok_count))).1
        (floatMul100Frac (floatDivFrac error_count (error_count + ok_count))).2 : ℕ) : ℤ)

/-- A candidate feed as it enters the deletion gate. -/
structure ErrorFeed where
  feed_id : Nat
  error_percent : ℤ
deriving DecidableEq

/-- The delete-proposal list: feeds whose `error_percent >= threshold`,
collected in display order. -/
def delete_feed_ids (error_feeds : List ErrorFeed) (threshold : ℤ) : List Nat :=
  (error_feeds.filter (fun f => threshold ≤ f.error_percent)).map ErrorFeed.feed_id

/-- Effect of `UnionFeed.bulk_delete` on the stored feed-id set. -/
def bulk_delete (db ids : List Nat) : List Nat :=
  db.filter (fun x => !(ids.contains x))

/-- The mutation `delete_invalid_feeds` applies to the feed table: nothing
when no feed is proposed, nothing when the confirmation is rejected,
otherwise one bulk deletion of exactly the proposed feeds. -/
def delete_invalid_feeds_mutation (db : List Nat) (error_feeds : List ErrorFeed)
    (threshold : ℤ) (confirm : Bool) : List Nat :=
  if (delete_feed_ids error_feeds threshold).isEmpty then db
  else if confirm then bulk_delete db (delete_feed_ids error_feeds threshold)
  else db

/-! ### AggregateRecalculator -/

/-- A `Story` row, restricted to the fields the recalculators read. -/
structure StoryRec where
  offset : Int
  dt_published : Nat
deriving DecidableEq

/-- A `Feed` row, restricted to the derived fields the recalculators maintain.
The monthly histogram is a list of `(month, story count)` entries. -/
structure Feed where
  total_storys : Int
  monthly_story_count : List (Nat × Nat)
  dryness : Int
  dt_first_story_published : Option Nat
deriving DecidableEq

/-- Modelled from the spec: the per-month histogram rebuilt from all
stories' published timestamps; `monthOf` abstracts the mapping from a
timestamp to its calendar month. -/
def computeMonthlyStoryCount (monthOf : Nat → Nat) (stories : List StoryRec) :
    List (Nat × Nat) :=
  ((stories.map (fun s => monthOf s.dt_published)).dedup).map
    (fun mo =>
      (mo, ((stories.map (fun s => monthOf s.dt_published)).filter (fun x => x == mo)).length))

/-- Modelled from the spec: `Story.refresh_feed_monthly_story_count`
rebuilds the histogram and always overwrites the stored one (one write).
Returns the new feed state and the number of writes performed. -/
def refresh_feed_monthly_story_count (monthOf : Nat → Nat) (stories : List StoryRec)
    (feed : Feed) : Feed × Nat :=
  ({ feed with monthly_story_count := computeMonthlyStoryCount monthOf stories }, 1)

/-- Modelled from the spec: `Story.fix_feed_total_storys` recounts the
stories owned by the feed and writes `total_storys` only when it differs
from the recomputed count; reports whether a correction occurred. -/
def fix_feed_total_storys (stories : List StoryRec) (feed : Feed) : Feed × Nat :=
  if feed.total_storys = (stories.length : Int) then (feed, 0)
  else ({ feed with total_storys := (stories.length : Int) }, 1)

/-- One iteration of `update_feed_dryness`: skip feeds with no stories;
rebuild the histogram first when the cached one is empty; recompute
`dryness` from the (possibly freshly rebuilt) histogram and save.
`drynessFn` abstracts the histogram's `dryness()` mapping. -/
def update_feed_dryness_step (monthOf : Nat → Nat) (drynessFn : List (Nat × Nat) → Int)
    (stories : List StoryRec) (feed : Feed) : Feed × Nat :=
  if feed.total_storys ≤ 0 then (feed, 0)
  else if feed.monthly_story_count.isEmpty then
    ({ (refresh_feed_monthly_story_count monthOf stories feed).1 with
        dryness := drynessFn
          (refresh_feed_monthly_story_count monthOf stories feed).1.monthly_story_count },
      (refresh_feed_monthly_story_count monthOf stories feed).2 + 1)
  else
    ({ feed with dryness := drynessFn feed.monthly_story_count }, 1)

/-- Modelled from the spec: `Story.get_by_offset` looks up the feed's
story at the given position; the row may be absent. -/
def get_by_offset (stories : List StoryRec) (off : Int) : Option StoryRec :=
  stories.find? (fun s => s.offset == off)

/-- One iteration of `update_feed_dt_first_story_published`: returns the
new feed state, the number of writes, and the number of warnings logged. -/
def update_feed_dt_first_story_published_step (stories : List StoryRec) (feed : Feed) :
    Feed × Nat × Nat :=
  if feed.dt_first_story_published ≠ none then (feed, 0, 0)
  else if feed.total_storys ≤ 0 then (feed, 0, 0)
  else
    match get_by_offset stories 0 with
    | none => (feed, 0, 1)
    | some story => ({ feed with dt_first_story_published := some story.dt_published }, 1, 0)

/-- The whole `update_feed_dt_first_story_published` batch loop: each feed
is processed with its own story list, one transaction per iteration. -/
def update_feed_dt_first_story_published_batch (db : List (Feed × List StoryRec)) :
    List (Feed × Nat × Nat) :=
  db.map (fun e => update_feed_dt_first_story_published_step e.2 e.1)

/-! ### `update_story_has_mathjax` -/

/-- A `Story` row, restricted to the fields `update_story_has_mathjax` touches. -/
structure StoryM where
  id : Nat
  content : String
  has_mathjax : Bool
deriving DecidableEq

/-- One iteration of `update_story_has_mathjax`: when the detector fires
the flag is set to `True` and the row saved (one write); otherwise the
row is left entirely alone.  `detect` abstracts
`processor.story_has_mathjax`. -/
def update_story_has_mathjax_step (detect : String → Bool) (story : StoryM) :
    StoryM × Nat :=
  if detect story.content then ({ story with has_mathjax := true }, 1)
  else (story, 0)

/-! ### FeedHealthClassifier: `update_feed_use_proxy` -/

/-- A `Feed` row, restricted to the fields `update_feed_use_proxy` touches. -/
structure ProxyFeed where
  id : Nat
  url : String
  title : String
  use_proxy : Bool
deriving DecidableEq

/-- The probe loop of `update_feed_use_proxy`: a candidate joins the final
proxy-enabled list exactly when its plain probe's status is classified as
needing a proxy and its proxied probe returns status 200.  `status`
abstracts `reader.read(url, use_proxy).status` and `need_proxy` abstracts
`FeedResponseStatus.is_need_proxy`. -/
def update_feed_use_proxy_select (status : String → Bool → Int) (need_proxy : Int → Bool)
    (feeds : List ProxyFeed) : List ProxyFeed :=
  feeds.filter (fun f => need_proxy (status f.url false) && (status f.url true == 200))

/-- The final bulk write of `update_feed_use_proxy`: every stored row whose
id was selected is refreshed from storage and saved with only `use_proxy`
set to `True`; all other rows are untouched. -/
def apply_use_proxy (db : List ProxyFeed) (chosen : List Nat) : List ProxyFeed :=
  db.map (fun f => if f.id ∈ chosen then { f with use_proxy := true } else f)

/-! ### RefreshTaskScheduler: `refresh_feed` -/

/-- A `Feed` row, restricted to the fields `refresh_feed` loads. -/
structure FeedRow where
  id : Nat
  url : String
  use_proxy : Bool
deriving DecidableEq

/-- The fixed api name of the feed-sync task family. -/
def sync_feed_api : String := "worker_rss.sync_feed"

/-- The deduplication key `api + ":" + feed_id` of a sync task. -/
def syncFeedKey (feed_id : Nat) : String :=
  sync_feed_api ++ ":" ++ Nat.repr feed_id

/-- A `WorkerTask` record as built by `refresh_feed` (the priority field,
fixed to `SYNC_FEED` for every task, is omitted). -/
structure WorkerTask where
  api : String
  key : String
  feed_id : Nat
  url : String
  use_proxy : Bool
  is_refresh : Bool
  expired_seconds : Nat
deriving DecidableEq

/-- The feed-id set of `refresh_feed`: explicit ids, decoded union-feed
ids and keyword matches (abstracted by `kwMatch`) are concatenated,
deduplicated and sorted ascending (`sorted(set(feed_ids))`). -/
def refresh_feed_collect (feeds union_feeds : List Nat) (db : List FeedRow)
    (kwMatch : FeedRow → Bool) : List Nat :=
  List.insertionSort (fun a b => a ≤ b)
    ((feeds ++ union_feeds ++ (db.filter kwMatch).map FeedRow.id).dedup)

/-- The task `refresh_feed` builds for one loaded feed row. -/
def mk_sync_task (expire : Nat) (f : FeedRow) : WorkerTask :=
  { api := sync_feed_api
    key := syncFeedKey f.id
    feed_id := f.id
    url := f.url
    use_proxy := f.use_proxy
    is_refresh := true
    expired_seconds := expire * 60 * 60 }

/-- The task batch `refresh_feed` submits: one task per collected feed id
in order, each looked up by primary key (`none` when some id has no row,
matching the uncaught `DoesNotExist` of `.get(pk=...)` aborting the run
before anything is submitted). -/
def refresh_feed_tasks (db : List FeedRow) (expire : Nat) : List Nat → Option (List WorkerTask)
  | [] => some []
  | i :: ids =>
    match db.find? (fun f => f.id == i), refresh_feed_tasks db expire ids with
    | some f, some ts => some (mk_sync_task expire f :: ts)
    | _, _ => none

/-! ### Decimal printing (for the dedup-key injectivity argument) -/

/-- Decimal digit characters of `n`, most significant first; reference
implementation used to characterize `Nat.repr`. -/
def decDigits (n : Nat) : List Char :=
  if h : n < 10 then [Nat.digitChar n]
  else decDigits (n / 10) ++ [Nat.digitChar (n % 10)]
decreasing_by exact Nat.div_lt_self (by omega) (by omega)

/-- Numeric value of a decimal digit character. -/
def decVal (c : Char) : Nat := c.toNat - 48

/-- Parse a most-significant-first decimal digit list back to a number. -/
def decParse (l : List Char) : Nat :=
  l.foldl (fun a c => 10 * a + decVal c) 0

/-! ## Lemmas: single-row update mechanics of the offset repair -/

theorem applyUp_fields (p : Nat × Int) (r : USRow) :
    (applyUp p r).id = r.id ∧ (applyUp p r).user_id = r.user_id ∧
      (applyUp p r).feed_id = r.feed_id ∧ (applyUp p r).story_offset = r.story_offset := by
  unfold applyUp
  split <;> exact ⟨rfl, rfl, rfl, rfl⟩

theorem applyUps_fields (ups : List (Nat × Int)) (r : USRow) :
    (applyUps ups r).id = r.id ∧ (applyUps ups r).user_id = r.user_id ∧
      (applyUps ups r).feed_id = r.feed_id ∧ (applyUps ups r).story_offset = r.story_offset := by
  induction ups generalizing r with
  | nil => exact ⟨rfl, rfl, rfl, rfl⟩
  | cons p ups ih =>
    have h1 := applyUp_fields p r
    have h2 := ih (applyUp p r)
    exact ⟨h2.1.trans h1.1, h2.2.1.trans h1.2.1, h2.2.2.1.trans h1.2.2.1,
      h2.2.2.2.trans h1.2.2.2⟩

theorem applyUps_append (u v : List (Nat × Int)) (r : USRow) :
    applyUps (u ++ v) r = applyUps v (applyUps u r) := by
  unfold applyUps
  rw [List.foldl_append]

theorem runUpdates_eq_map (rows : List USRow) (ups : List (Nat × Int)) :
    runUpdates rows ups = rows.map (applyUps ups) := by
  induction ups generalizing rows with
  | nil =>
    rw [show rows.map (applyUps []) = rows.map id from rfl, List.map_id]
    rfl
  | cons p ups ih =>
    show runUpdates (updateOffset rows p) ups = _
    rw [ih, updateOffset, List.map_map]
    rfl

theorem applyUps_map_eq_find (f : USRow → Int) (m : List USRow) (q : USRow) (i : Nat)
    (hq : q.id = i) (hm : (m.map USRow.id).Nodup) :
    applyUps (m.map (fun t => (t.id, f t))) q =
      match m.find? (fun t => t.id == i) with
      | some t => { q with offset := f t }
      | none => q := by
  induction m generalizing q with
  | nil => rfl
  | cons s m ih =>
    rw [List.map_cons, List.nodup_cons] at hm
    have h1 : applyUps ((s :: m).map (fun t => (t.id, f t))) q
        = applyUps (m.map (fun t => (t.id, f t))) (applyUp (s.id, f s) q) := rfl
    by_cases h : s.id = i
    · have h0 : applyUp (s.id, f s) q = { q with offset := f s } := by
        unfold applyUp
        rw [if_pos (hq.trans h.symm)]
      have hfind : m.find? (fun t => t.id == i) = none := by
        rw [List.find?_eq_none]
        intro x hx hbeq
        apply hm.1
        have hxi : x.id = i := by simpa using hbeq
        have hxs : USRow.id x = USRow.id s := by rw [hxi, h]
        exact hxs ▸ List.mem_map_of_mem USRow.id hx
      rw [h1, h0, ih { q with offset := f s } hq hm.2, hfind,
        List.find?_cons_of_pos _ (by simp [h])]
    · have h0 : applyUp (s.id, f s) q = q := by
        unfold applyUp
        rw [if_neg]
        intro hc
        exact h (hc.symm.trans hq)
      rw [h1, h0, ih q hq hm.2, List.find?_cons_of_neg _ (by simp [h])]

theorem find_snapshot (rows m : List USRow) (r : USRow)
    (hnd : (rows.map USRow.id).Nodup) (hsub : ∀ s ∈ m, s ∈ rows) (hr : r ∈ rows) :
    m.find? (fun t => t.id == r.id) = if r ∈ m then some r else none := by
  induction m with
  | nil => simp
  | cons s m ih =>
    have hsub2 : ∀ t ∈ m, t ∈ rows := fun t ht => hsub t (List.mem_cons_of_mem s ht)
    by_cases h : s.id = r.id
    · have hsr : s = r :=
        List.inj_on_of_nodup_map hnd (hsub s (List.mem_cons_self s m)) hr h
      subst hsr
      rw [List.find?_cons_of_pos _ (by simp), if_pos (List.mem_cons_self s m)]
    · rw [List.find?_cons_of_neg _ (by simp [h]), ih hsub2]
      have hrs : r ≠ s := fun he => h (by rw [he])
      by_cases hm : r ∈ m
      · rw [if_pos hm, if_pos (List.mem_cons_of_mem s hm)]
      · rw [if_neg hm, if_neg (by simp [List.mem_cons, hrs, hm])]

theorem applyUps_snapshot (f : USRow → Int) (rows m : List USRow) (q r : USRow)
    (hq : q.id = r.id)
    (hnd : (rows.map USRow.id).Nodup) (hsub : ∀ s ∈ m, s ∈ rows)
    (hmnd : (m.map USRow.id).Nodup) (hr : r ∈ rows) :
    applyUps (m.map (fun t => (t.id, f t))) q =
      if r ∈ m then { q with offset := f r } else q := by
  rw [applyUps_map_eq_find f m q r.id hq hmnd, find_snapshot rows m r hnd hsub hr]
  by_cases h : r ∈ m
  · rw [if_pos h, if_pos h]
  · rw [if_neg h, if_neg h]

theorem mismatchRows_sublist (rows : List USRow) : List.Sublist (mismatchRows rows) rows :=
  List.filter_sublist rows

theorem mismatch_subset (rows : List USRow) : ∀ s ∈ mismatchRows rows, s ∈ rows :=
  fun s hs => (mismatchRows_sublist rows).subset hs

theorem mismatch_take_subset (rows : List USRow) (k : Nat) :
    ∀ s ∈ (mismatchRows rows).take k, s ∈ rows :=
  fun s hs => mismatch_subset rows s ((List.take_sublist k (mismatchRows rows)).subset hs)

theorem mismatch_ids_nodup (rows : List USRow) (hnd : (rows.map USRow.id).Nodup) :
    ((mismatchRows rows).map USRow.id).Nodup :=
  List.Nodup.sublist ((mismatchRows_sublist rows).map USRow.id) hnd

theorem mismatch_take_ids_nodup (rows : List USRow) (k : Nat)
    (hnd : (rows.map USRow.id).Nodup) :
    (((mismatchRows rows).take k).map USRow.id).Nodup :=
  List.Nodup.sublist ((List.take_sublist k (mismatchRows rows)).map USRow.id)
    (mismatch_ids_nodup rows hnd)

theorem mem_mismatchRows {rows : List USRow} {r : USRow} :
    r ∈ mismatchRows rows ↔ r ∈ rows ∧ r.offset ≠ r.story_offset := by
  simp [mismatchRows, List.mem_filter]

theorem phaseA_eq (rows : List USRow) :
    phaseAUpdates (mismatchItems rows)
      = (mismatchRows rows).map (fun t => (t.id, -t.offset)) := by
  simp only [phaseAUpdates, mismatchItems, List.map_map]
  rfl

theorem phaseB_eq (rows : List USRow) :
    phaseBUpdates (mismatchItems rows)
      = (mismatchRows rows).map (fun t => (t.id, t.story_offset)) := by
  simp only [phaseBUpdates, mismatchItems, List.map_map]
  rfl

theorem phaseA_prefix_unique (rows T : List USRow)
    (hnd : (rows.map USRow.id).Nodup)
    (huniq : uniqueOffsets rows)
    (hnn : ∀ r ∈ rows, 0 ≤ r.offset)
    (hsub : ∀ s ∈ T, s ∈ rows) (hTnd : (T.map USRow.id).Nodup) :
    uniqueOffsets (rows.map (applyUps (T.map (fun t => (t.id, -t.offset))))) := by
  unfold uniqueOffsets at huniq ⊢
  rw [List.pairwise_map]
  refine List.Pairwise.imp_of_mem ?_ huniq
  intro a b ha hb hab
  show sameScope (applyUps (T.map (fun t => (t.id, -t.offset))) a)
        (applyUps (T.map (fun t => (t.id, -t.offset))) b) →
      (applyUps (T.map (fun t => (t.id, -t.offset))) a).offset ≠
        (applyUps (T.map (fun t => (t.id, -t.offset))) b).offset
  rw [applyUps_snapshot (fun t => -t.offset) rows T a a rfl hnd hsub hTnd ha,
    applyUps_snapshot (fun t => -t.offset) rows T b b rfl hnd hsub hTnd hb]
  have hna := hnn a ha
  have hnb := hnn b hb
  by_cases hta : a ∈ T
  · by_cases htb : b ∈ T
    · rw [if_pos hta, if_pos htb]
      intro hsc
      have hne := hab hsc
      show ¬(-a.offset = -b.offset)
      omega
    · rw [if_pos hta, if_neg htb]
      intro hsc
      have hne := hab hsc
      show ¬(-a.offset = b.offset)
      omega
  · by_cases htb : b ∈ T
    · rw [if_neg hta, if_pos htb]
      intro hsc
      have hne := hab hsc
      show ¬(a.offset = -b.offset)
      omega
    · rw [if_neg hta, if_neg htb]
      exact hab

theorem not_mismatch_eq (rows : List USRow) (x : USRow) (hx : x ∈ rows)
    (hnx : x ∉ mismatchRows rows) : x.offset = x.story_offset := by
  by_contra hne
  exact hnx (mem_mismatchRows.mpr ⟨hx, hne⟩)

theorem twoPhaseB_prefix_unique (rows : List USRow) (j : Nat)
    (hnd : (rows.map USRow.id).Nodup)
    (huniq : uniqueOffsets rows)
    (hsuniq : uniqueStoryOffsets rows)
    (hnn : ∀ r ∈ rows, 0 ≤ r.offset ∧ 0 ≤ r.story_offset)
    (hpos : ∀ r ∈ rows, r.offset ≠ r.story_offset → 0 < r.offset) :
    uniqueOffsets
      ((rows.map (applyUps ((mismatchRows rows).map (fun t => (t.id, -t.offset))))).map
        (applyUps (((mismatchRows rows).take j).map (fun t => (t.id, t.story_offset))))) := by
  unfold uniqueOffsets at huniq ⊢
  unfold uniqueStoryOffsets at hsuniq
  rw [List.pairwise_map, List.pairwise_map]
  refine List.Pairwise.imp_of_mem ?_ (huniq.and hsuniq)
  intro a b ha hb hab
  obtain ⟨hab1, hab2⟩ := hab
  obtain ⟨hna1, hna2⟩ := hnn a ha
  obtain ⟨hnb1, hnb2⟩ := hnn b hb
  have hsubm := mismatch_subset rows
  have hmnd := mismatch_ids_nodup rows hnd
  have hsubT := mismatch_take_subset rows j
  have hTnd := mismatch_take_ids_nodup rows j hnd
  have hTm : ∀ x, x ∈ (mismatchRows rows).take j → x ∈ mismatchRows rows :=
    fun x hx => (List.take_sublist j (mismatchRows rows)).subset hx
  show sameScope
      (applyUps (((mismatchRows rows).take j).map (fun t => (t.id, t.story_offset)))
        (applyUps ((mismatchRows rows).map (fun t => (t.id, -t.offset))) a))
      (applyUps (((mismatchRows rows).take j).map (fun t => (t.id, t.story_offset)))
        (applyUps ((mismatchRows rows).map (fun t => (t.id, -t.offset))) b)) →
    (applyUps (((mismatchRows rows).take j).map (fun t => (t.id, t.story_offset)))
        (applyUps ((mismatchRows rows).map (fun t => (t.id, -t.offset))) a)).offset ≠
      (applyUps (((mismatchRows rows).take j).map (fun t => (t.id, t.story_offset)))
        (applyUps ((mismatchRows rows).map (fun t => (t.id, -t.offset))) b)).offset
  rw [applyUps_snapshot (fun t => -t.offset) rows (mismatchRows rows) a a rfl hnd
      hsubm hmnd ha,
    applyUps_snapshot (fun t => -t.offset) rows (mismatchRows rows) b b rfl hnd
      hsubm hmnd hb,
    applyUps_snapshot (fun t => t.story_offset) rows ((mismatchRows rows).take j)
      (if a ∈ mismatchRows rows then { a with offset := -a.offset } else a) a
      (by split <;> rfl) hnd hsubT hTnd ha,
    applyUps_snapshot (fun t => t.story_offset) rows ((mismatchRows rows).take j)
      (if b ∈ mismatchRows rows then { b with offset := -b.offset } else b) b
      (by split <;> rfl) hnd hsubT hTnd hb]
  by_cases hBa : a ∈ (mismatchRows rows).take j
  · have hma : a ∈ mismatchRows rows := hTm a hBa
    rw [if_pos hBa, if_pos hma]
    by_cases hBb : b ∈ (mismatchRows rows).take j
    · have hmb : b ∈ mismatchRows rows := hTm b hBb
      rw [if_pos hBb, if_pos hmb]
      intro hsc
      have h2 := hab2 hsc
      show ¬(a.story_offset = b.story_offset)
      omega
    · by_cases hmb : b ∈ mismatchRows rows
      · have hbpos : 0 < b.offset := hpos b hb (mem_mismatchRows.mp hmb).2
        rw [if_neg hBb, if_pos hmb]
        intro hsc
        show ¬(a.story_offset = -b.offset)
        omega
      · have hbeq : b.offset = b.story_offset := not_mismatch_eq rows b hb hmb
        rw [if_neg hBb, if_neg hmb]
        intro hsc
        have h2 := hab2 hsc
        show ¬(a.story_offset = b.offset)
        omega
  · by_cases hma : a ∈ mismatchRows rows
    · have hapos : 0 < a.offset := hpos a ha (mem_mismatchRows.mp hma).2
      rw [if_neg hBa, if_pos hma]
      by_cases hBb : b ∈ (mismatchRows rows).take j
      · have hmb : b ∈ mismatchRows rows := hTm b hBb
        rw [if_pos hBb, if_pos hmb]
        intro hsc
        show ¬(-a.offset = b.story_offset)
        omega
      · by_cases hmb : b ∈ mismatchRows rows
        · rw [if_neg hBb, if_pos hmb]
          intro hsc
          have h1 := hab1 hsc
          show ¬(-a.offset = -b.offset)
          omega
        · have hbeq : b.offset = b.story_offset := not_mismatch_eq rows b hb hmb
          rw [if_neg hBb, if_neg hmb]
          intro hsc
          show ¬(-a.offset = b.offset)
          omega
    · have haeq : a.offset = a.story_offset := not_mismatch_eq rows a ha hma
      rw [if_neg hBa, if_neg hma]
      by_cases hBb : b ∈ (mismatchRows rows).take j
      · have hmb : b ∈ mismatchRows rows := hTm b hBb
        rw [if_pos hBb, if_pos hmb]
        intro hsc
        have h2 := hab2 hsc
        show ¬(a.offset = b.story_offset)
        omega
      · by_cases hmb : b ∈ mismatchRows rows
        · have hbpos : 0 < b.offset := hpos b hb (mem_mismatchRows.mp hmb).2
          rw [if_neg hBb, if_pos hmb]
          intro hsc
          show ¬(a.offset = -b.offset)
          omega
        · have hbeq : b.offset = b.story_offset := not_mismatch_eq rows b hb hmb
          rw [if_neg hBb, if_neg hmb]
          intro hsc
          have h1 := hab1 hsc
          show ¬(a.offset = b.offset)
          omega

theorem ops_eq (rows : List USRow) (h : ¬(mismatchItems rows).isEmpty = true) :
    fix_user_story_offset_ops rows
      = (mismatchRows rows).map (fun t => (t.id, -t.offset))
        ++ (mismatchRows rows).map (fun t => (t.id, t.story_offset)) := by
  unfold fix_user_story_offset_ops
  rw [if_neg h, phaseA_eq, phaseB_eq]

/-- C1 (amended): under the documented data invariants (distinct primary
keys, the `(user, feed, offset)` uniqueness constraint holding initially,
non-negative offsets, per-scope distinct story offsets) and the extra
precondition that every mismatched row's current offset is strictly
positive, the two-phase repair never produces an intermediate or final
state violating the uniqueness constraint, afterwards every row satisfies
`UserStory.offset = Story.offset`, and an empty snapshot performs no
writes. -/
theorem C1_two_phase_repair (rows : List USRow)
    (hnd : (rows.map USRow.id).Nodup)
    (huniq : uniqueOffsets rows)
    (hsuniq : uniqueStoryOffsets rows)
    (hnn : ∀ r ∈ rows, 0 ≤ r.offset ∧ 0 ≤ r.story_offset)
    (hpos : ∀ r ∈ rows, r.offset ≠ r.story_offset → 0 < r.offset) :
    (∀ k, uniqueOffsets (runUpdates rows ((fix_user_story_offset_ops rows).take k)))
    ∧ (∀ r ∈ fix_user_story_offset rows, r.offset = r.story_offset)
    ∧ (mismatchItems rows = [] →
        fix_user_story_offset_ops rows = [] ∧ fix_user_story_offset rows = rows) := by
  refine ⟨?_, ?_, ?_⟩
  · intro k
    by_cases hempty : (mismatchItems rows).isEmpty = true
    · unfold fix_user_story_offset_ops
      rw [if_pos hempty, List.take_nil]
      exact huniq
    · rw [ops_eq rows hempty, List.take_append_eq_append_take]
      by_cases hk : k ≤ (mismatchRows rows).length
      · have h0 : k - ((mismatchRows rows).map (fun t => (t.id, -t.offset))).length = 0 := by
          rw [List.length_map]
          omega
        rw [h0, List.take_zero, List.append_nil, ← List.map_take, runUpdates_eq_map]
        exact phaseA_prefix_unique rows ((mismatchRows rows).take k) hnd huniq
          (fun r hr => (hnn r hr).1) (mismatch_take_subset rows k)
          (mismatch_take_ids_nodup rows k hnd)
      · have hA : ((mismatchRows rows).map (fun t => (t.id, -t.offset))).take k
            = (mismatchRows rows).map (fun t => (t.id, -t.offset)) := by
          apply List.take_of_length_le
          rw [List.length_map]
          omega
        rw [hA, ← List.map_take, runUpdates_eq_map]
        have hsplit : rows.map (applyUps
              ((mismatchRows rows).map (fun t => (t.id, -t.offset))
                ++ ((mismatchRows rows).take
                      (k - ((mismatchRows rows).map (fun t => (t.id, -t.offset))).length)).map
                    (fun t => (t.id, t.story_offset))))
            = (rows.map (applyUps ((mismatchRows rows).map (fun t => (t.id, -t.offset))))).map
                (applyUps (((mismatchRows rows).take
                      (k - ((mismatchRows rows).map (fun t => (t.id, -t.offset))).length)).map
                    (fun t => (t.id, t.story_offset)))) := by
          rw [List.map_map]
          exact List.map_congr_left (fun r hr => applyUps_append _ _ r)
        rw [hsplit]
        exact twoPhaseB_prefix_unique rows
          (k - ((mismatchRows rows).map (fun t => (t.id, -t.offset))).length)
          hnd huniq hsuniq hnn hpos
  · intro r hr
    by_cases hempty : (mismatchItems rows).isEmpty = true
    · unfold fix_user_story_offset fix_user_story_offset_ops at hr
      rw [if_pos hempty] at hr
      have hrr : r ∈ rows := hr
      have hmm : mismatchRows rows = [] := by
        have h1 : mismatchItems rows = [] := List.isEmpty_iff.mp hempty
        unfold mismatchItems at h1
        exact List.map_eq_nil_iff.mp h1
      apply not_mismatch_eq rows r hrr
      rw [hmm]
      exact List.not_mem_nil r
    · unfold fix_user_story_offset at hr
      rw [ops_eq rows hempty, runUpdates_eq_map] at hr
      obtain ⟨r0, hr0, rfl⟩ := List.mem_map.mp hr
      have hsubm := mismatch_subset rows
      have hmnd := mismatch_ids_nodup rows hnd
      rw [applyUps_append,
        applyUps_snapshot (fun t => -t.offset) rows (mismatchRows rows) r0 r0 rfl hnd
          hsubm hmnd hr0,
        applyUps_snapshot (fun t => t.story_offset) rows (mismatchRows rows)
          (if r0 ∈ mismatchRows rows then { r0 with offset := -r0.offset } else r0) r0
          (by split <;> rfl) hnd hsubm hmnd hr0]
      by_cases hm : r0 ∈ mismatchRows rows
      · rw [if_pos hm, if_pos hm]
      · rw [if_neg hm, if_neg hm]
        exact not_mismatch_eq rows r0 hr0 hm
  · intro h0
    have hempty : (mismatchItems rows).isEmpty = true := by
      rw [h0]
      rfl
    constructor
    · unfold fix_user_story_offset_ops
      rw [if_pos hempty]
    · unfold fix_user_story_offset fix_user_story_offset_ops
      rw [if_pos hempty]
      rfl

/-- C1 witness: a concrete two-row swapped pair (offsets 2 and 5 inside
one scope, each row's story holding the other offset) is repaired through
every intermediate state without a uniqueness violation and ends fully
reconciled. -/
theorem C1_two_phase_repair_witness :
    uniqueOffsets (runUpdates [⟨1, 1, 1, 2, 5⟩, ⟨2, 1, 1, 5, 2⟩]
        ((fix_user_story_offset_ops [⟨1, 1, 1, 2, 5⟩, ⟨2, 1, 1, 5, 2⟩]).take 3))
    ∧ ∀ r ∈ fix_user_story_offset [⟨1, 1, 1, 2, 5⟩, ⟨2, 1, 1, 5, 2⟩],
        r.offset = r.story_offset :=
  ⟨(C1_two_phase_repair [⟨1, 1, 1, 2, 5⟩, ⟨2, 1, 1, 5, 2⟩] (by decide) (by decide)
      (by decide) (by decide) (by decide)).1 3,
    (C1_two_phase_repair [⟨1, 1, 1, 2, 5⟩, ⟨2, 1, 1, 5, 2⟩] (by decide) (by decide)
      (by decide) (by decide) (by decide)).2.1⟩

/-- C1 counterexample: the claim as stated is false.  Two mismatched rows
of one scope, `(id 1, offset 3, story_offset 0)` and
`(id 2, offset 0, story_offset 5)`, satisfy every documented invariant
(distinct ids, initial uniqueness, non-negative offsets, distinct story
offsets), yet after the third write of the run (Phase B setting row 1 to
its story offset 0 while row 2 still sits at its negated offset `-0 = 0`)
the `(user, feed, offset)` uniqueness constraint is violated. -/
theorem C1_counterexample :
    ((([⟨1, 7, 9, 3, 0⟩, ⟨2, 7, 9, 0, 5⟩] : List USRow).map USRow.id).Nodup
        ∧ uniqueOffsets [⟨1, 7, 9, 3, 0⟩, ⟨2, 7, 9, 0, 5⟩]
        ∧ uniqueStoryOffsets [⟨1, 7, 9, 3, 0⟩, ⟨2, 7, 9, 0, 5⟩]
        ∧ ∀ r ∈ ([⟨1, 7, 9, 3, 0⟩, ⟨2, 7, 9, 0, 5⟩] : List USRow),
            0 ≤ r.offset ∧ 0 ≤ r.story_offset)
    ∧ ¬ uniqueOffsets (runUpdates [⟨1, 7, 9, 3, 0⟩, ⟨2, 7, 9, 0, 5⟩]
        ((fix_user_story_offset_ops [⟨1, 7, 9, 3, 0⟩, ⟨2, 7, 9, 0, 5⟩]).take 3)) := by
  decide

/-- C2: with the uniqueness constraint holding initially and no row
holding a negative offset, every transient state of Phase A satisfies the
`(user, feed, offset)` uniqueness constraint (the violation branch is
unreachable); moreover within one scope the negated offsets of distinct
snapshot rows are pairwise distinct and distinct from every unmodified
row's offset. -/
theorem C2_phaseA_collision_free (rows : List USRow)
    (hnd : (rows.map USRow.id).Nodup)
    (huniq : uniqueOffsets rows)
    (hnn : ∀ r ∈ rows, 0 ≤ r.offset) :
    (∀ k, uniqueOffsets (runUpdates rows ((phaseAUpdates (mismatchItems rows)).take k)))
    ∧ (∀ a ∈ rows, ∀ b ∈ rows, a ≠ b → sameScope a b →
        a.offset ≠ a.story_offset → b.offset ≠ b.story_offset → -a.offset ≠ -b.offset)
    ∧ (∀ a ∈ rows, ∀ b ∈ rows, sameScope a b →
        a.offset ≠ a.story_offset → b.offset = b.story_offset → -a.offset ≠ b.offset) := by
  have hsymm : Symmetric (fun x y : USRow => sameScope x y → x.offset ≠ y.offset) := by
    intro x y hxy hsc2
    exact (hxy ⟨hsc2.1.symm, hsc2.2.symm⟩).symm
  refine ⟨?_, ?_, ?_⟩
  · intro k
    rw [phaseA_eq, ← List.map_take, runUpdates_eq_map]
    exact phaseA_prefix_unique rows ((mismatchRows rows).take k) hnd huniq hnn
      (mismatch_take_subset rows k) (mismatch_take_ids_nodup rows k hnd)
  · intro a ha b hb hne hsc ham hbm
    have h := List.Pairwise.forall hsymm huniq ha hb hne hsc
    omega
  · intro a ha b hb hsc ham hbeq
    have hne : a ≠ b := by
      intro he
      rw [he] at ham
      exact ham hbeq
    have h := List.Pairwise.forall hsymm huniq ha hb hne hsc
    have hna := hnn a ha
    have hnb := hnn b hb
    omega

/-- C2 witness: with one mismatched row at offset 0 next to an unmodified
row at offset 3, the one-step Phase A state keeps the constraint intact. -/
theorem C2_phaseA_collision_free_witness :
    uniqueOffsets (runUpdates [⟨1, 4, 4, 0, 6⟩, ⟨2, 4, 4, 3, 3⟩]
        ((phaseAUpdates (mismatchItems [⟨1, 4, 4, 0, 6⟩, ⟨2, 4, 4, 3, 3⟩])).take 1)) :=
  (C2_phaseA_collision_free [⟨1, 4, 4, 0, 6⟩, ⟨2, 4, 4, 3, 3⟩] (by decide) (by decide)
    (by decide)).1 1

theorem pythonRound_intCast (n : ℤ) : pythonRound (n : ℚ) = n := by
  unfold pythonRound
  rw [Int.floor_intCast, sub_self, if_pos (by norm_num : (0 : ℚ) < 1/2)]

theorem floorLog2Frac_self (e : Nat) : floorLog2Frac e e = 0 := by
  unfold floorLog2Frac
  rw [if_neg (lt_irrefl _)]
  omega

theorem roundHalfEvenFrac_mul_left (e k : Nat) (he : 0 < e) :
    roundHalfEvenFrac (e * k) e = k := by
  unfold roundHalfEvenFrac
  rw [Nat.mul_mod_right, Nat.mul_div_cancel_left _ he]
  rw [if_pos (by omega)]

theorem floatDivFrac_self (e : Nat) (he : 0 < e) :
    floatDivFrac e e = (2 ^ 52, 2 ^ 52) := by
  unfold floatDivFrac roundDoubleFrac
  rw [if_neg (by omega : ¬e = 0), floorLog2Frac_self]
  rw [if_pos (by omega : (0 : ℤ) ≤ 52 - 0)]
  have h52 : ((52 : ℤ) - 0).toNat = 52 := by decide
  rw [h52, roundHalfEvenFrac_mul_left e (2 ^ 52) he]

/-- C3 (amended): every candidate feed's `error_percent` equals
`round(error_count / (error_count + ok_count) * 100)` evaluated the way
the program evaluates it — in IEEE binary64 floating point; a candidate
with zero ok-count keeps the default 100, which agrees with the
float-evaluated formula (`e/e` is exactly 1.0); 99 errors and 1 ok give
99, agreeing there with exact-rational rounding, and 10 errors with 0 ok
give 100. -/
theorem C3_error_percent (e ok : Nat) (he : 0 < e) :
    error_percent e ok
      = ((roundHalfEvenFrac (floatMul100Frac (floatDivFrac e (e + ok))).1
          (floatMul100Frac (floatDivFrac e (e + ok))).2 : ℕ) : ℤ)
    ∧ error_percent e 0 = 100
    ∧ error_percent 99 1 = 99
    ∧ error_percent 99 1 = pythonRound ((99 : ℚ) / ((99 : ℚ) + (1 : ℚ)) * 100)
    ∧ error_percent 10 0 = 100 := by
  have hz : ∀ n : Nat, 0 < n →
      ((roundHalfEvenFrac (floatMul100Frac (floatDivFrac n (n + 0))).1
        (floatMul100Frac (floatDivFrac n (n + 0))).2 : ℕ) : ℤ) = 100 := by
    intro n hn
    rw [Nat.add_zero, floatDivFrac_self n hn]
    decide
  refine ⟨?_, ?_, by decide, ?_, by decide⟩
  · by_cases hok : ok = 0
    · subst hok
      unfold error_percent
      rw [if_pos rfl, hz e he]
    · unfold error_percent
      rw [if_neg hok]
  · unfold error_percent
    rw [if_pos rfl]
  · have h1 : error_percent 99 1 = 99 := by decide
    have h2 : pythonRound ((99 : ℚ) / ((99 : ℚ) + (1 : ℚ)) * 100) = 99 := by
      have harg : (99 : ℚ) / ((99 : ℚ) + (1 : ℚ)) * 100 = ((99 : ℤ) : ℚ) := by norm_num
      rw [harg, pythonRound_intCast]
    rw [h1, h2]

/-- C3 counterexample: at `error_count = 1150`, `ok_count = 850` the
program's IEEE binary64 evaluation of `round(1150/2000*100)` yields 57
(the double nearest `0.575` lies just below it, so the product stays
below `57.5`), while the claim's formula over exact rationals rounds
`57.5` to 58 — the claimed equality with exact `round` is false on the
code. -/
theorem C3_counterexample :
    error_percent 1150 850 = 57
    ∧ pythonRound ((1150 : ℚ) / ((1150 : ℚ) + (850 : ℚ)) * 100) = 58
    ∧ ¬(error_percent 1150 850
        = pythonRound ((1150 : ℚ) / ((1150 : ℚ) + (850 : ℚ)) * 100)) := by
  have h1 : error_percent 1150 850 = 57 := by decide
  have h2 : pythonRound ((1150 : ℚ) / ((1150 : ℚ) + (850 : ℚ)) * 100) = 58 := by
    have harg : (1150 : ℚ) / ((1150 : ℚ) + (850 : ℚ)) * 100 = 115 / 2 := by norm_num
    rw [harg]
    have hfloor : ⌊(115 / 2 : ℚ)⌋ = 57 := by
      rw [Int.floor_eq_iff]
      constructor <;> norm_num
    unfold pythonRound
    rw [hfloor]
    norm_num
  refine ⟨h1, h2, ?_⟩
  rw [h1, h2]
  omega

/-- C3 witness: the amended float-formula equality instantiated at 99
errors and 1 ok fetch. -/
theorem C3_error_percent_witness :
    0 < 99 ∧ error_percent 99 1
      = ((roundHalfEvenFrac (floatMul100Frac (floatDivFrac 99 (99 + 1))).1
          (floatMul100Frac (floatDivFrac 99 (99 + 1))).2 : ℕ) : ℤ) :=
  ⟨by norm_num, (C3_error_percent 99 1 (by norm_num)).1⟩

/-- C4: a candidate feed is proposed for deletion exactly when its
`error_percent` reaches the threshold (at threshold 99 a feed at 98 is
excluded and one at 99 included); a rejected confirmation leaves the
stored feeds untouched, and an accepted one removes exactly the proposed
feeds in one bulk deletion. -/
theorem C4_deletion_gate (error_feeds : List ErrorFeed) (threshold : ℤ) (db : List Nat) :
    (∀ i, i ∈ delete_feed_ids error_feeds threshold ↔
        ∃ f ∈ error_feeds, f.feed_id = i ∧ threshold ≤ f.error_percent)
    ∧ delete_invalid_feeds_mutation db error_feeds threshold false = db
    ∧ (∀ x, x ∈ delete_invalid_feeds_mutation db error_feeds threshold true ↔
        x ∈ db ∧ x ∉ delete_feed_ids error_feeds threshold)
    ∧ delete_feed_ids [⟨1, 98⟩] 99 = []
    ∧ delete_feed_ids [⟨1, 99⟩] 99 = [1] := by
  refine ⟨?_, ?_, ?_, by decide, by decide⟩
  · intro i
    simp only [delete_feed_ids, List.mem_map, List.mem_filter, decide_eq_true_eq]
    constructor
    · rintro ⟨f, ⟨hf, hle⟩, rfl⟩
      exact ⟨f, hf, rfl, hle⟩
    · rintro ⟨f, hf, rfl, hle⟩
      exact ⟨f, ⟨hf, hle⟩, rfl⟩
  · simp [delete_invalid_feeds_mutation]
  · intro x
    unfold delete_invalid_feeds_mutation
    by_cases h : (delete_feed_ids error_feeds threshold).isEmpty = true
    · rw [if_pos h, List.isEmpty_iff.mp h]
      simp
    · rw [if_neg h, if_pos rfl]
      unfold bulk_delete
      simp [List.mem_filter]

/-- C5 (amended): all four recalculators are idempotent in effect — with
no drift, a second run leaves every stored value unchanged;
`RecomputeTotalStorys` and `BackfillFirstPublished` then perform no
write at all, while `RefreshMonthlyStoryCount` always rewrites the
(identical) histogram and `RefreshDryness` rewrites the (identical)
dryness whenever `total_storys > 0`. -/
theorem C5_idempotent_in_effect (monthOf : Nat → Nat) (drynessFn : List (Nat × Nat) → Int)
    (stories : List StoryRec) (feed : Feed) :
    (feed.total_storys = (stories.length : Int) →
        fix_feed_total_storys stories feed = (feed, 0))
    ∧ (feed.dt_first_story_published ≠ none →
        update_feed_dt_first_story_published_step stories feed = (feed, 0, 0))
    ∧ (feed.monthly_story_count = computeMonthlyStoryCount monthOf stories →
        (refresh_feed_monthly_story_count monthOf stories feed).1 = feed
          ∧ (refresh_feed_monthly_story_count monthOf stories feed).2 = 1)
    ∧ (feed.monthly_story_count = computeMonthlyStoryCount monthOf stories →
       feed.dryness = drynessFn feed.monthly_story_count →
        (update_feed_dryness_step monthOf drynessFn stories feed).1 = feed
          ∧ (0 < feed.total_storys →
              (update_feed_dryness_step monthOf drynessFn stories feed).2 ≠ 0)) := by
  refine ⟨?_, ?_, ?_, ?_⟩
  · intro h
    unfold fix_feed_total_storys
    rw [if_pos h]
  · intro h
    unfold update_feed_dt_first_story_published_step
    rw [if_pos h]
  · intro h
    unfold refresh_feed_monthly_story_count
    refine ⟨?_, rfl⟩
    show { feed with monthly_story_count := computeMonthlyStoryCount monthOf stories } = feed
    rw [← h]
  · intro h1 h2
    unfold update_feed_dryness_step
    by_cases ht : feed.total_storys ≤ 0
    · rw [if_pos ht]
      exact ⟨rfl, fun hlt => absurd ht (by omega)⟩
    · rw [if_neg ht]
      by_cases hm : feed.monthly_story_count.isEmpty = true
      · rw [if_pos hm]
        constructor
        · show { { feed with monthly_story_count := computeMonthlyStoryCount monthOf stories } with
              dryness := drynessFn (computeMonthlyStoryCount monthOf stories) } = feed
          rw [← h1, ← h2]
        · intro hlt
          show (refresh_feed_monthly_story_count monthOf stories feed).2 + 1 ≠ 0
          simp
      · rw [if_neg hm]
        constructor
        · show { feed with dryness := drynessFn feed.monthly_story_count } = feed
          rw [← h2]
        · intro hlt
          simp

/-- C5 counterexample: a feed whose stored histogram and dryness already
equal the recomputed values is nevertheless written again by a second
`update_feed_dryness` run (its save is unconditional): the state is
unchanged but the write count is nonzero, refuting "a second run
performs no writes". -/
theorem C5_counterexample :
    (⟨1, [(0, 1)], 0, some 5⟩ : Feed).monthly_story_count
        = computeMonthlyStoryCount (fun _ => 0) [⟨0, 5⟩]
    ∧ (⟨1, [(0, 1)], 0, some 5⟩ : Feed).dryness
        = (fun _ => (0 : Int)) (⟨1, [(0, 1)], 0, some 5⟩ : Feed).monthly_story_count
    ∧ (update_feed_dryness_step (fun _ => 0) (fun _ => 0) [⟨0, 5⟩]
        ⟨1, [(0, 1)], 0, some 5⟩).1 = ⟨1, [(0, 1)], 0, some 5⟩
    ∧ (update_feed_dryness_step (fun _ => 0) (fun _ => 0) [⟨0, 5⟩]
        ⟨1, [(0, 1)], 0, some 5⟩).2 ≠ 0 := by
  decide

/-- C5 witness: with values already matching, the backfill performs no
write and the dryness refresh leaves the state unchanged. -/
theorem C5_idempotent_in_effect_witness :
    update_feed_dt_first_story_published_step [⟨0, 5⟩] ⟨1, [(0, 1)], 0, some 5⟩
        = (⟨1, [(0, 1)], 0, some 5⟩, 0, 0)
    ∧ (update_feed_dryness_step (fun _ => 0) (fun _ => 0) [⟨0, 5⟩]
        ⟨1, [(0, 1)], 0, some 5⟩).1 = ⟨1, [(0, 1)], 0, some 5⟩ :=
  ⟨(C5_idempotent_in_effect (fun _ => 0) (fun _ => 0) [⟨0, 5⟩]
        ⟨1, [(0, 1)], 0, some 5⟩).2.1 (by decide),
    ((C5_idempotent_in_effect (fun _ => 0) (fun _ => 0) [⟨0, 5⟩]
        ⟨1, [(0, 1)], 0, some 5⟩).2.2.2 (by decide) (by decide)).1⟩

/-- C6: the backfill skips (no write) when the timestamp is already set
or the feed has no stories; a missing story at offset 0 is logged and the
feed skipped; otherwise the story's published time is persisted; and the
batch processes every feed regardless of how the others fared. -/
theorem C6_backfill_first_published (feed : Feed) (stories : List StoryRec)
    (db1 db2 : List (Feed × List StoryRec)) :
    (feed.dt_first_story_published ≠ none →
        update_feed_dt_first_story_published_step stories feed = (feed, 0, 0))
    ∧ (feed.dt_first_story_published = none → feed.total_storys ≤ 0 →
        update_feed_dt_first_story_published_step stories feed = (feed, 0, 0))
    ∧ (feed.dt_first_story_published = none → ¬feed.total_storys ≤ 0 →
        get_by_offset stories 0 = none →
        update_feed_dt_first_story_published_step stories feed = (feed, 0, 1))
    ∧ (∀ story, feed.dt_first_story_published = none → ¬feed.total_storys ≤ 0 →
        get_by_offset stories 0 = some story →
        update_feed_dt_first_story_published_step stories feed
          = ({ feed with dt_first_story_published := some story.dt_published }, 1, 0))
    ∧ update_feed_dt_first_story_published_batch (db1 ++ (feed, stories) :: db2)
        = update_feed_dt_first_story_published_batch db1
          ++ update_feed_dt_first_story_published_step stories feed
              :: update_feed_dt_first_story_published_batch db2 := by
  refine ⟨?_, ?_, ?_, ?_, ?_⟩
  · intro h
    unfold update_feed_dt_first_story_published_step
    rw [if_pos h]
  · intro h1 h2
    unfold update_feed_dt_first_story_published_step
    rw [if_neg (fun hc => hc h1), if_pos h2]
  · intro h1 h2 h3
    unfold update_feed_dt_first_story_published_step
    rw [if_neg (fun hc => hc h1), if_neg h2, h3]
  · intro story h1 h2 h3
    unfold update_feed_dt_first_story_published_step
    rw [if_neg (fun hc => hc h1), if_neg h2, h3]
  · unfold update_feed_dt_first_story_published_batch
    rw [List.map_append, List.map_cons]

/-- C6 witness: a feed with three claimed stories but no story row at
offset 0 is logged and skipped without a write, and with the row present
its published time is persisted. -/
theorem C6_backfill_first_published_witness :
    update_feed_dt_first_story_published_step [] ⟨3, [], 0, none⟩
        = (⟨3, [], 0, none⟩, 0, 1)
    ∧ update_feed_dt_first_story_published_step [⟨0, 7⟩] ⟨3, [], 0, none⟩
        = (⟨3, [], 0, some 7⟩, 1, 0) :=
  ⟨(C6_backfill_first_published ⟨3, [], 0, none⟩ [] [] []).2.2.1
      (by decide) (by decide) (by decide),
    (C6_backfill_first_published ⟨3, [], 0, none⟩ [⟨0, 7⟩] [] []).2.2.2.1 ⟨0, 7⟩
      (by decide) (by decide) (by decide)⟩

/-- C8: a candidate joins the final proxy-enabled set exactly when its
unproxied probe is classified as needing a proxy and its proxied probe
returns the definitive-success status 200. -/
theorem C8_proxy_promotion (status : String → Bool → Int) (need_proxy : Int → Bool)
    (feeds : List ProxyFeed) (f : ProxyFeed) :
    f ∈ update_feed_use_proxy_select status need_proxy feeds ↔
      f ∈ feeds ∧ need_proxy (status f.url false) = true ∧ status f.url true = 200 := by
  unfold update_feed_use_proxy_select
  rw [List.mem_filter]
  simp [Bool.and_eq_true, beq_iff_eq]

/-- C9: the bulk write maps every stored row to itself with `use_proxy`
replaced by `use_proxy OR selected`; hence rows outside the selection are
untouched, selected rows change only `use_proxy` (to `True`), and a
`True` flag is never cleared. -/
theorem C9_use_proxy_one_way (db : List ProxyFeed) (chosen : List Nat) :
    apply_use_proxy db chosen
        = db.map (fun f => { f with use_proxy := f.use_proxy || decide (f.id ∈ chosen) })
    ∧ (∀ f ∈ db, f.id ∉ chosen → f ∈ apply_use_proxy db chosen)
    ∧ (∀ f ∈ db, f.id ∈ chosen →
        { f with use_proxy := true } ∈ apply_use_proxy db chosen) := by
  refine ⟨?_, ?_, ?_⟩
  · unfold apply_use_proxy
    refine List.map_congr_left (fun f hf => ?_)
    by_cases h : f.id ∈ chosen
    · rw [if_pos h]
      simp [h]
    · rw [if_neg h]
      simp [h]
  · intro f hf h
    unfold apply_use_proxy
    refine List.mem_map.mpr ⟨f, hf, ?_⟩
    simp [h]
  · intro f hf h
    unfold apply_use_proxy
    refine List.mem_map.mpr ⟨f, hf, ?_⟩
    simp [h]

/-- C9 witness: with row 2 selected, row 1 (already proxied) is untouched
and the whole table equals the or-map characterization. -/
theorem C9_use_proxy_one_way_witness :
    apply_use_proxy [⟨1, "u", "t", true⟩, ⟨2, "v", "s", false⟩] [2]
        = List.map (fun f : ProxyFeed => { f with use_proxy := f.use_proxy || decide (f.id ∈ [2]) })
            ([⟨1, "u", "t", true⟩, ⟨2, "v", "s", false⟩] : List ProxyFeed)
    ∧ (⟨1, "u", "t", true⟩ : ProxyFeed)
        ∈ apply_use_proxy [⟨1, "u", "t", true⟩, ⟨2, "v", "s", false⟩] [2] :=
  ⟨(C9_use_proxy_one_way [⟨1, "u", "t", true⟩, ⟨2, "v", "s", false⟩] [2]).1,
    (C9_use_proxy_one_way [⟨1, "u", "t", true⟩, ⟨2, "v", "s", false⟩] [2]).2.1
      ⟨1, "u", "t", true⟩ (by decide) (by decide)⟩

/-- C10: the mathjax updater writes `has_mathjax = True` (one write) when
the detector fires and performs no write at all otherwise; in particular
an already-set flag is never reset even when the detector returns false. -/
theorem C10_mathjax_one_way (detect : String → Bool) (story : StoryM) :
    (detect story.content = false →
        update_story_has_mathjax_step detect story = (story, 0))
    ∧ (detect story.content = true →
        update_story_has_mathjax_step detect story = ({ story with has_mathjax := true }, 1))
    ∧ (story.has_mathjax = true →
        ((update_story_has_mathjax_step detect story).1).has_mathjax = true) := by
  refine ⟨?_, ?_, ?_⟩
  · intro h
    unfold update_story_has_mathjax_step
    rw [if_neg (by simp [h])]
  · intro h
    unfold update_story_has_mathjax_step
    rw [if_pos h]
  · intro h
    unfold update_story_has_mathjax_step
    by_cases hd : detect story.content = true
    · rw [if_pos hd]
    · rw [if_neg hd]
      exact h

/-- C10 witness: a story whose flag is already set and whose content no
longer triggers the detector is left untouched, flag still `True`. -/
theorem C10_mathjax_one_way_witness :
    update_story_has_mathjax_step (fun _ => false) ⟨1, "x", true⟩ = (⟨1, "x", true⟩, 0)
    ∧ ((update_story_has_mathjax_step (fun _ => false) ⟨1, "x", true⟩).1).has_mathjax = true :=
  ⟨(C10_mathjax_one_way (fun _ => false) ⟨1, "x", true⟩).1 (by decide),
    (C10_mathjax_one_way (fun _ => false) ⟨1, "x", true⟩).2.2 (by decide)⟩

/-! ## Lemmas: decimal printing and dedup-key injectivity -/

theorem toDigitsCore_eq_decDigits (fuel : Nat) :
    ∀ (n : Nat) (ds : List Char), n < fuel →
      Nat.toDigitsCore 10 fuel n ds = decDigits n ++ ds := by
  induction fuel with
  | zero =>
    intro n ds h
    omega
  | succ f ih =>
    intro n ds h
    show (if n / 10 = 0 then Nat.digitChar (n % 10) :: ds
        else Nat.toDigitsCore 10 f (n / 10) (Nat.digitChar (n % 10) :: ds))
      = decDigits n ++ ds
    by_cases h10 : n < 10
    · rw [if_pos (by omega)]
      conv_rhs => rw [decDigits]
      rw [dif_pos h10, Nat.mod_eq_of_lt h10]
      rfl
    · have hlt : n / 10 < n := Nat.div_lt_self (by omega) (by omega)
      rw [if_neg (by omega), ih (n / 10) (Nat.digitChar (n % 10) :: ds) (by omega)]
      conv_rhs => rw [decDigits]
      rw [dif_neg h10, List.append_assoc]
      rfl

theorem nat_repr_eq_decDigits (n : Nat) : Nat.repr n = (decDigits n).asString := by
  show (Nat.toDigits 10 n).asString = _
  rw [Nat.toDigits, toDigitsCore_eq_decDigits (n + 1) n [] (by omega), List.append_nil]

theorem decVal_digitChar : ∀ m, m < 10 → decVal (Nat.digitChar m) = m := by decide

theorem decParse_append_one (l : List Char) (c : Char) :
    decParse (l ++ [c]) = 10 * decParse l + decVal c := by
  unfold decParse
  rw [List.foldl_append]
  rfl

theorem decParse_decDigits (n : Nat) : decParse (decDigits n) = n := by
  induction n using Nat.strong_induction_on with
  | _ n ih =>
    by_cases h : n < 10
    · rw [decDigits, dif_pos h]
      show 10 * 0 + decVal (Nat.digitChar n) = n
      rw [decVal_digitChar n h]
      omega
    · rw [decDigits, dif_neg h, decParse_append_one, ih (n / 10) (by omega),
        decVal_digitChar (n % 10) (by omega)]
      omega

theorem nat_repr_injective (a b : Nat) (h : Nat.repr a = Nat.repr b) : a = b := by
  rw [nat_repr_eq_decDigits a, nat_repr_eq_decDigits b] at h
  have hd : decDigits a = decDigits b := congrArg String.data h
  have ha := decParse_decDigits a
  rw [hd, decParse_decDigits b] at ha
  exact ha.symm

theorem syncFeedKey_injective (i j : Nat) (h : syncFeedKey i = syncFeedKey j) : i = j := by
  apply nat_repr_injective
  apply String.ext
  have h2 := congrArg String.data h
  simp only [syncFeedKey, String.data_append] at h2
  exact List.append_cancel_left h2

/-! ## Lemmas: the task batch of `refresh_feed` -/

theorem refresh_feed_tasks_cons (db : List FeedRow) (expire : Nat) (i : Nat)
    (ids : List Nat) :
    refresh_feed_tasks db expire (i :: ids)
      = match db.find? (fun f => f.id == i), refresh_feed_tasks db expire ids with
        | some f, some ts => some (mk_sync_task expire f :: ts)
        | _, _ => none := rfl

theorem refresh_feed_tasks_shape (db : List FeedRow) (expire : Nat) :
    ∀ (ids : List Nat) (ts : List WorkerTask),
      refresh_feed_tasks db expire ids = some ts →
      ∀ t ∈ ts, t.api = sync_feed_api ∧ t.key = syncFeedKey t.feed_id ∧ t.feed_id ∈ ids := by
  intro ids
  induction ids with
  | nil =>
    intro ts hts
    obtain rfl := Option.some_inj.mp hts
    intro t ht
    cases ht
  | cons x ids ih =>
    intro ts hts
    rw [refresh_feed_tasks_cons] at hts
    cases hfx : db.find? (fun f => f.id == x) with
    | none =>
      rw [hfx] at hts
      exact Option.noConfusion hts
    | some f0 =>
      cases hrest : refresh_feed_tasks db expire ids with
      | none =>
        rw [hfx, hrest] at hts
        exact Option.noConfusion hts
      | some ts2 =>
        rw [hfx, hrest] at hts
        obtain rfl := Option.some_inj.mp hts
        intro t ht
        rcases List.mem_cons.mp ht with h | h
        · subst h
          have hfid : f0.id = x := by simpa using List.find?_some hfx
          refine ⟨rfl, rfl, ?_⟩
          show f0.id ∈ x :: ids
          rw [hfid]
          exact List.mem_cons_self x ids
        · obtain ⟨h1, h2, h3⟩ := ih ts2 hrest t h
          exact ⟨h1, h2, List.mem_cons_of_mem x h3⟩

theorem refresh_feed_tasks_count (db : List FeedRow) (expire : Nat) (i : Nat) :
    ∀ (ids : List Nat) (ts : List WorkerTask),
      refresh_feed_tasks db expire ids = some ts →
      ts.countP (fun t => t.feed_id == i) = ids.countP (fun x => x == i) := by
  intro ids
  induction ids with
  | nil =>
    intro ts hts
    obtain rfl := Option.some_inj.mp hts
    rfl
  | cons x ids ih =>
    intro ts hts
    rw [refresh_feed_tasks_cons] at hts
    cases hfx : db.find? (fun f => f.id == x) with
    | none =>
      rw [hfx] at hts
      exact Option.noConfusion hts
    | some f0 =>
      cases hrest : refresh_feed_tasks db expire ids with
      | none =>
        rw [hfx, hrest] at hts
        exact Option.noConfusion hts
      | some ts2 =>
        rw [hfx, hrest] at hts
        obtain rfl := Option.some_inj.mp hts
        have hfid : f0.id = x := by simpa using List.find?_some hfx
        rw [List.countP_cons, List.countP_cons, ih ts2 hrest,
          show (mk_sync_task expire f0).feed_id = x from hfid]

theorem countP_eq_one_of_nodup (ids : List Nat) (hnd : ids.Nodup) (i : Nat) (hi : i ∈ ids) :
    ids.countP (fun x => x == i) = 1 := by
  induction ids with
  | nil => cases hi
  | cons x ids ih =>
    rw [List.nodup_cons] at hnd
    rcases List.mem_cons.mp hi with h | h
    · subst h
      rw [List.countP_cons_of_pos (fun y => y == i) ids (by simp)]
      have h0 : ids.countP (fun y => y == i) = 0 := by
        rw [List.countP_eq_zero]
        intro y hy hbeq
        have hyi : y = i := by simpa using hbeq
        apply hnd.1
        rw [← hyi]
        exact hy
      omega
    · have hne : ¬((fun y => y == i) x = true) := by
        intro hbeq
        have he : x = i := by simpa using hbeq
        apply hnd.1
        rw [he]
        exact h
      rw [List.countP_cons_of_neg (fun y => y == i) ids hne, ih hnd.2 h]

/-- C7: the collected feed ids are the deduplicated, ascending-sorted
union of the explicit ids, the decoded union-feed ids and the keyword
matches; every constructed task carries the dedup key `api:feed_id`, and
each collected id yields exactly one task with its key in the submitted
batch, however many sources supplied it. -/
theorem C7_refresh_feed_dedup (feeds union_feeds : List Nat) (db : List FeedRow)
    (kwMatch : FeedRow → Bool) (expire : Nat) (ts : List WorkerTask)
    (hts : refresh_feed_tasks db expire (refresh_feed_collect feeds union_feeds db kwMatch)
        = some ts) :
    List.Sorted (fun a b => a ≤ b) (refresh_feed_collect feeds union_feeds db kwMatch)
    ∧ (refresh_feed_collect feeds union_feeds db kwMatch).Nodup
    ∧ (∀ i, i ∈ refresh_feed_collect feeds union_feeds db kwMatch ↔
        i ∈ feeds ∨ i ∈ union_feeds ∨ ∃ f ∈ db, kwMatch f = true ∧ f.id = i)
    ∧ (∀ t ∈ ts, t.api = sync_feed_api ∧ t.key = syncFeedKey t.feed_id)
    ∧ (∀ i ∈ refresh_feed_collect feeds union_feeds db kwMatch,
        ts.countP (fun t => t.key == syncFeedKey i) = 1) := by
  have hnodup : (refresh_feed_collect feeds union_feeds db kwMatch).Nodup := by
    unfold refresh_feed_collect
    exact (List.perm_insertionSort _ _).nodup_iff.mpr (List.nodup_dedup _)
  have hshape := refresh_feed_tasks_shape db expire _ ts hts
  refine ⟨?_, hnodup, ?_, ?_, ?_⟩
  · unfold refresh_feed_collect
    exact List.sorted_insertionSort _ _
  · intro i
    unfold refresh_feed_collect
    rw [List.mem_insertionSort, List.mem_dedup, List.mem_append, List.mem_append]
    constructor
    · rintro ((h | h) | h)
      · exact Or.inl h
      · exact Or.inr (Or.inl h)
      · obtain ⟨f, hf, rfl⟩ := List.mem_map.mp h
        obtain ⟨hfdb, hkw⟩ := List.mem_filter.mp hf
        exact Or.inr (Or.inr ⟨f, hfdb, hkw, rfl⟩)
    · rintro (h | h | ⟨f, hfdb, hkw, rfl⟩)
      · exact Or.inl (Or.inl h)
      · exact Or.inl (Or.inr h)
      · exact Or.inr (List.mem_map_of_mem _ (List.mem_filter.mpr ⟨hfdb, hkw⟩))
  · intro t ht
    obtain ⟨h1, h2, h3⟩ := hshape t ht
    exact ⟨h1, h2⟩
  · intro i hi
    have hkey : ts.countP (fun t => t.key == syncFeedKey i)
        = ts.countP (fun t => t.feed_id == i) := by
      apply List.countP_congr
      intro t ht
      obtain ⟨h1, h2, h3⟩ := hshape t ht
      show (t.key == syncFeedKey i) = true ↔ (t.feed_id == i) = true
      rw [beq_iff_eq, beq_iff_eq, h2]
      exact ⟨fun hk => syncFeedKey_injective _ _ hk, fun hf => by rw [hf]⟩
    rw [hkey, refresh_feed_tasks_count db expire i _ ts hts]
    exact countP_eq_one_of_nodup _ hnodup i hi

/-- C7 witness: feed id 3 supplied through all three sources yields the
singleton sorted id list and a single task carrying its dedup key. -/
theorem C7_refresh_feed_dedup_witness :
    List.Sorted (fun a b => a ≤ b)
        (refresh_feed_collect [3] [3] [⟨3, "u", false⟩] (fun _ => true))
    ∧ ([mk_sync_task 1 ⟨3, "u", false⟩].countP (fun t => t.key == syncFeedKey 3)) = 1 :=
  ⟨(C7_refresh_feed_dedup [3] [3] [⟨3, "u", false⟩] (fun _ => true) 1
      [mk_sync_task 1 ⟨3, "u", false⟩] (by rfl)).1,
    (C7_refresh_feed_dedup [3] [3] [⟨3, "u", false⟩] (fun _ => true) 1
      [mk_sync_task 1 ⟨3, "u", false⟩] (by rfl)).2.2.2.2 3 (by decide)⟩

end Rssant
